import Mathlib

/-!
Shallow embedding of the emul8tor CHIP-8 emulator core (src/lib.rs, src/video.rs).

Machine integers are modelled as `Nat` with explicit `% 256` / `% 65536` where
the Rust code wraps.  Rust's implicit array bounds check, which panics the host
process on an out-of-range index, is modelled by `Fault.indexOutOfBounds`; the
source's explicit `panic!` calls are modelled by the remaining `Fault`
constructors.  The SDL canvas, the audio device and the event pump are external
collaborators: the canvas side of `draw_pixel` is dropped, and the per-cycle
observations taken from `InputManager` and `rand::thread_rng` are passed in an
explicit `Env`.
-/

namespace Emul8

def MEMORY_SIZE : Nat := 4096
def V_COUNT : Nat := 16
def ROM_START_ADDRESS : Nat := 0x200
def SPRITE_WIDTH : Nat := 8
def MAX_STACK_LEVELS : Nat := 16

/-- The 80-byte built-in font, copied to addresses 0..80 by `Chip8.new`. -/
def CHIP8_FONTSET : List Nat :=
  [0xF0, 0x90, 0x90, 0x90, 0xF0,
   0x20, 0x60, 0x20, 0x20, 0x70,
   0xF0, 0x10, 0xF0, 0x80, 0xF0,
   0xF0, 0x10, 0xF0, 0x10, 0xF0,
   0x90, 0x90, 0xF0, 0x10, 0x10,
   0xF0, 0x80, 0xF0, 0x10, 0xF0,
   0xF0, 0x80, 0xF0, 0x90, 0xF0,
   0xF0, 0x10, 0x20, 0x40, 0x40,
   0xF0, 0x90, 0xF0, 0x90, 0xF0,
   0xF0, 0x90, 0xF0, 0x10, 0xF0,
   0xF0, 0x90, 0xF0, 0x90, 0x90,
   0xE0, 0x90, 0xE0, 0x90, 0xE0,
   0xF0, 0x80, 0x80, 0x80, 0xF0,
   0xE0, 0x90, 0x90, 0x90, 0xE0,
   0xF0, 0x80, 0xF0, 0x80, 0xF0,
   0xF0, 0x80, 0xF0, 0x80, 0x80]

/-- The three machine variants (`enum Mode` in src/lib.rs). -/
inductive Mode
  | Chip8
  | SuperChip
  | XOChip
deriving DecidableEq

/-- Rust `enum Resolution` in src/video.rs. -/
inductive Resolution
  | Low
  | High
deriving DecidableEq

/-- Abnormal terminations of the Rust program.  `indexOutOfBounds` is the
implicit bounds-check panic raised by Rust slice indexing (a host-process
panic, not a reported error value); the other constructors are the source's
explicit `panic!` calls. -/
inductive Fault
  | indexOutOfBounds
  | unknownOpcode (opcode : Nat)
  | stackOverflow
  | stackUnderflow
deriving DecidableEq

/-- Rust `struct DisplayManager` (src/video.rs) without the SDL canvas.  `VRAM` is
the `Vec<Vec<u8>>` pixel grid as a function `row ↦ column ↦ value`; `width` and
`height` stand for `VRAM[0].len()` and `VRAM.len()`. -/
structure DisplayManager where
  width : Nat
  height : Nat
  VRAM : Nat → Nat → Nat
  update_needed : Bool

def X_DIM_LORES : Nat := 64
def Y_DIM_LORES : Nat := 32
def X_DIM_HIRES : Nat := 128
def Y_DIM_HIRES : Nat := 64

/-- Rust `DisplayManager::new`: a zeroed grid of the resolution's dimensions (the
SDL window/canvas creation is external). -/
def DisplayManager.new (resolution : Resolution) (_scale : Nat) : DisplayManager :=
  { width := match resolution with | .Low => X_DIM_LORES | .High => X_DIM_HIRES
    height := match resolution with | .Low => Y_DIM_LORES | .High => Y_DIM_HIRES
    VRAM := fun _ _ => 0
    update_needed := false }

/-- Rust `DisplayManager::draw_pixel`: store `value` at `VRAM[y][x]` (the canvas
point drawing is external).  Note it does not set `update_needed`. -/
def DisplayManager.draw_pixel (d : DisplayManager) (x y value : Nat) : DisplayManager :=
  { d with VRAM := fun j i => if j = y ∧ i = x then value else d.VRAM j i }

/-- Rust `DisplayManager::set_pixel`: mark dirty, XOR `value` into `VRAM[y][x]`,
return `previous_value & value`. -/
def DisplayManager.set_pixel (d : DisplayManager) (x y value : Nat) : DisplayManager × Nat :=
  let d1 := { d with update_needed := true }
  let previous_value := d1.VRAM y x
  (d1.draw_pixel x y (previous_value ^^^ value), previous_value &&& value)

/-- Rust `DisplayManager::clear`: zero the grid and mark dirty. -/
def DisplayManager.clear (d : DisplayManager) : DisplayManager :=
  { d with VRAM := fun _ _ => 0, update_needed := true }

/-- Rust `DisplayManager::scroll_down`, written pointwise: the source's in-place
descending row loop copies row `y - rows` into row `y` for `rows ≤ y < height`
and zeroes rows `0..rows`; cells outside the grid are untouched.  Like the
source (which only calls `draw_pixel`), it does not set `update_needed`. -/
def DisplayManager.scroll_down (d : DisplayManager) (rows : Nat) : DisplayManager :=
  { d with VRAM := fun y x =>
      if y < d.height ∧ x < d.width then
        if y < rows then 0 else d.VRAM (y - rows) x
      else d.VRAM y x }

/-- Rust `DisplayManager::scroll_up`, written pointwise. -/
def DisplayManager.scroll_up (d : DisplayManager) (rows : Nat) : DisplayManager :=
  { d with VRAM := fun y x =>
      if y < d.height ∧ x < d.width then
        if y < d.height - rows then d.VRAM (y + rows) x else 0
      else d.VRAM y x }

/-- Rust `DisplayManager::scroll_right` (fixed 4-column shift), written pointwise. -/
def DisplayManager.scroll_right (d : DisplayManager) : DisplayManager :=
  { d with VRAM := fun y x =>
      if y < d.height ∧ x < d.width then
        if x < 4 then 0 else d.VRAM y (x - 4)
      else d.VRAM y x }

/-- Rust `DisplayManager::scroll_left` (fixed 4-column shift), written pointwise. -/
def DisplayManager.scroll_left (d : DisplayManager) : DisplayManager :=
  { d with VRAM := fun y x =>
      if y < d.height ∧ x < d.width then
        if x < d.width - 4 then d.VRAM y (x + 4) else 0
      else d.VRAM y x }

/-- Per-cycle observations of the external collaborators: the random byte drawn
by `rand::thread_rng().gen::<u8>()`, `InputManager::is_key_pressed`, and
`InputManager::get_next_released_key`. -/
structure Env where
  rand : Nat
  pressed : Nat → Bool
  next_released_key : Option Nat

/-- Rust `struct Chip8` (src/lib.rs).  `memory`, `V` and `stack` are the fixed
arrays as functions; the `input`, `audio` and `sdl_context` collaborators are
external. -/
structure Chip8 where
  mode : Mode
  scale : Nat
  memory : Nat → Nat
  V : Nat → Nat
  I : Nat
  PC : Nat
  stack : Nat → Nat
  SP : Nat
  delay_timer : Nat
  sound_timer : Nat
  display : DisplayManager
  release_key_register : Option Nat

/-- Pointwise update of an array-as-function. -/
def upd (f : Nat → Nat) (k v : Nat) : Nat → Nat :=
  fun i => if i = k then v else f i

/-- Rust `self.memory[addr]`: Rust's checked indexing — the value when in range, a
host-process bounds-check panic otherwise. -/
def memRead (s : Chip8) (addr : Nat) : Except Fault Nat :=
  if addr < MEMORY_SIZE then .ok (s.memory addr) else .error .indexOutOfBounds

/-- Rust `self.memory[addr] = val` with Rust's checked indexing. -/
def memWrite (s : Chip8) (addr val : Nat) : Except Fault Chip8 :=
  if addr < MEMORY_SIZE then .ok { s with memory := upd s.memory addr val }
  else .error .indexOutOfBounds

/-- Rust `Chip8::new`: fresh registers and stack, `PC = 0x200`, low-resolution
display, fontset copied over `memory[0..80]`. -/
def Chip8.new (mode : Mode) (scale : Nat) (memory : Nat → Nat) : Chip8 :=
  { mode := mode
    scale := scale
    memory := fun a => if a < CHIP8_FONTSET.length then CHIP8_FONTSET.getD a 0 else memory a
    V := fun _ => 0
    I := 0
    PC := ROM_START_ADDRESS
    stack := fun _ => 0
    SP := 0
    delay_timer := 0
    sound_timer := 0
    display := DisplayManager.new .Low scale
    release_key_register := none }

/-- Rust `Chip8::wait_for_next_key`. -/
def wait_for_next_key (env : Env) (s : Chip8) (register : Nat) : Chip8 :=
  match env.next_released_key with
  | some val => { s with V := upd s.V register val, release_key_register := none }
  | none => s

/-- Rust `Chip8::fetch_opcode`: big-endian 16-bit read at `PC`, then `PC += 2`. -/
def fetch_opcode (s : Chip8) : Except Fault (Nat × Chip8) := do
  let hi ← memRead s s.PC
  let lo ← memRead s (s.PC + 1)
  .ok (hi <<< 8 ||| lo, { s with PC := s.PC + 2 })

/-- Rust `Chip8::update_timers` (the audio start/stop side effects are external). -/
def update_timers (s : Chip8) : Chip8 :=
  { s with
    delay_timer := if 0 < s.delay_timer then s.delay_timer - 1 else s.delay_timer
    sound_timer := if 0 < s.sound_timer then s.sound_timer - 1 else s.sound_timer }

def op_0nnn (s : Chip8) (_nnn : Nat) : Chip8 := s

def op_00cn (s : Chip8) (n : Nat) : Chip8 :=
  { s with display := s.display.scroll_down n }

def op_00dn (s : Chip8) (n : Nat) : Chip8 :=
  { s with display := s.display.scroll_up n }

def op_00e0 (s : Chip8) : Chip8 :=
  { s with display := s.display.clear }

/-- Rust `op_00ee`: return; `panic!("Stack underflow!")` when the stack is empty. -/
def op_00ee (s : Chip8) : Except Fault Chip8 :=
  if s.SP = 0 then .error .stackUnderflow
  else .ok { s with SP := s.SP - 1, PC := s.stack (s.SP - 1) }

def op_00fb (s : Chip8) : Chip8 :=
  { s with display := s.display.scroll_right }

def op_00fc (s : Chip8) : Chip8 :=
  { s with display := s.display.scroll_left }

def op_00fe (s : Chip8) : Chip8 :=
  { s with display := DisplayManager.new .Low s.scale }

def op_00ff (s : Chip8) : Chip8 :=
  { s with display := DisplayManager.new .High s.scale }

def op_1nnn (s : Chip8) (addr : Nat) : Chip8 :=
  { s with PC := addr }

/-- Rust `op_2nnn`: call; `panic!("Stack overflow!")` at depth 16. -/
def op_2nnn (s : Chip8) (addr : Nat) : Except Fault Chip8 :=
  if MAX_STACK_LEVELS ≤ s.SP then .error .stackOverflow
  else .ok { s with stack := upd s.stack s.SP s.PC, SP := s.SP + 1, PC := addr }

def op_3xkk (s : Chip8) (x kk : Nat) : Chip8 :=
  if s.V x = kk then { s with PC := s.PC + 2 } else s

def op_4xkk (s : Chip8) (x kk : Nat) : Chip8 :=
  if s.V x ≠ kk then { s with PC := s.PC + 2 } else s

def op_5xy0 (s : Chip8) (x y : Nat) : Chip8 :=
  if s.V x = s.V y then { s with PC := s.PC + 2 } else s

def op_6xkk (s : Chip8) (x kk : Nat) : Chip8 :=
  { s with V := upd s.V x kk }

def op_7xkk (s : Chip8) (x kk : Nat) : Chip8 :=
  { s with V := upd s.V x ((s.V x + kk) % 256) }

def op_8xy0 (s : Chip8) (x y : Nat) : Chip8 :=
  { s with V := upd s.V x (s.V y) }

/-- Rust `op_8xy1`: OR; classic mode additionally zeroes `V[0xF]`. -/
def op_8xy1 (s : Chip8) (x y : Nat) : Chip8 :=
  let s1 := { s with V := upd s.V x (s.V x ||| s.V y) }
  if s1.mode = Mode.Chip8 then { s1 with V := upd s1.V 0xF 0 } else s1

/-- Rust `op_8xy2`: AND; classic mode additionally zeroes `V[0xF]`. -/
def op_8xy2 (s : Chip8) (x y : Nat) : Chip8 :=
  let s1 := { s with V := upd s.V x (s.V x &&& s.V y) }
  if s1.mode = Mode.Chip8 then { s1 with V := upd s1.V 0xF 0 } else s1

/-- Rust `op_8xy3`: XOR; classic mode additionally zeroes `V[0xF]`. -/
def op_8xy3 (s : Chip8) (x y : Nat) : Chip8 :=
  let s1 := { s with V := upd s.V x (s.V x ^^^ s.V y) }
  if s1.mode = Mode.Chip8 then { s1 with V := upd s1.V 0xF 0 } else s1

/-- Rust `op_8xy4`: `overflowing_add`, store the wrapped sum in `V[x]`, then write
the carry into `V[0xF]`. -/
def op_8xy4 (s : Chip8) (x y : Nat) : Chip8 :=
  let sum := s.V x + s.V y
  let s1 := { s with V := upd s.V x (sum % 256) }
  { s1 with V := upd s1.V 0xF (if 256 ≤ sum then 1 else 0) }

/-- Rust `op_8xy5`: `overflowing_sub`, store the wrapped difference in `V[x]`, then
write NOT-borrow into `V[0xF]`. -/
def op_8xy5 (s : Chip8) (x y : Nat) : Chip8 :=
  let a := s.V x
  let b := s.V y
  let s1 := { s with V := upd s.V x ((a + 256 - b) % 256) }
  { s1 with V := upd s1.V 0xF (if b ≤ a then 1 else 0) }

/-- Rust `op_8xy6`: shift right; classic/XO first copy `V[y]` into `V[x]`. -/
def op_8xy6 (s : Chip8) (x y : Nat) : Chip8 :=
  let s1 := if s.mode ≠ Mode.SuperChip then { s with V := upd s.V x (s.V y) } else s
  let bit := s1.V x &&& 0x1
  let s2 := { s1 with V := upd s1.V x (s1.V x >>> 1) }
  { s2 with V := upd s2.V 0xF bit }

/-- Rust `op_8xy7`: reverse `overflowing_sub`. -/
def op_8xy7 (s : Chip8) (x y : Nat) : Chip8 :=
  let a := s.V x
  let b := s.V y
  let s1 := { s with V := upd s.V x ((b + 256 - a) % 256) }
  { s1 with V := upd s1.V 0xF (if a ≤ b then 1 else 0) }

/-- Rust `op_8xye`: shift left (u8 truncation); classic/XO first copy `V[y]`. -/
def op_8xye (s : Chip8) (x y : Nat) : Chip8 :=
  let s1 := if s.mode ≠ Mode.SuperChip then { s with V := upd s.V x (s.V y) } else s
  let bit := (s1.V x >>> 7) &&& 0x1
  let s2 := { s1 with V := upd s1.V x ((s1.V x <<< 1) % 256) }
  { s2 with V := upd s2.V 0xF bit }

def op_9xy0 (s : Chip8) (x y : Nat) : Chip8 :=
  if s.V x ≠ s.V y then { s with PC := s.PC + 2 } else s

def op_annn (s : Chip8) (addr : Nat) : Chip8 :=
  { s with I := addr }

def op_bnnn (s : Chip8) (addr : Nat) : Chip8 :=
  { s with PC := addr + s.V 0 }

def op_bxnn (s : Chip8) (x xnn : Nat) : Chip8 :=
  { s with PC := xnn + s.V x }

def op_cxkk (env : Env) (s : Chip8) (x kk : Nat) : Chip8 :=
  { s with V := upd s.V x (env.rand &&& kk) }

/-- Inner loop of `op_dxyn`: the 8 bits of one sprite row, MSB first; in
non-XO modes a bit past the right edge breaks out of the row. -/
def drawBits (s : Chip8) (byte x_coord yy : Nat) : List Nat → Chip8
  | [] => s
  | bit_index :: rest =>
    if s.mode ≠ Mode.XOChip ∧ s.display.width ≤ x_coord + bit_index then s
    else
      let x := (x_coord + bit_index) % s.display.width
      let bit := (byte >>> (7 - bit_index)) &&& 1
      let p := s.display.set_pixel x yy bit
      drawBits { s with display := p.1, V := upd s.V 0xF (s.V 0xF ||| p.2) }
        byte x_coord yy rest

/-- Outer loop of `op_dxyn`: one sprite row per memory byte at `I + row`; in
non-XO modes a row past the bottom edge breaks out of the draw. -/
def drawRows (s : Chip8) (x_coord y_coord : Nat) : List Nat → Except Fault Chip8
  | [] => .ok s
  | byte_index :: rest =>
    if s.mode ≠ Mode.XOChip ∧ s.display.height ≤ y_coord + byte_index then .ok s
    else do
      let yy := (y_coord + byte_index) % s.display.height
      let byte ← memRead s (s.I + byte_index)
      let s2 := drawBits s byte x_coord yy (List.range SPRITE_WIDTH)
      drawRows s2 x_coord y_coord rest

/-- Rust `op_dxyn`: anchor at `(V[x] % width, V[y] % height)`, reset `V[0xF]`, then
draw `n` sprite rows, OR-ing every pixel collision into `V[0xF]`. -/
def op_dxyn (s : Chip8) (x y n : Nat) : Except Fault Chip8 :=
  let x_coord := s.V x % s.display.width
  let y_coord := s.V y % s.display.height
  drawRows { s with V := upd s.V 0xF 0 } x_coord y_coord (List.range n)

def op_ex9e (env : Env) (s : Chip8) (x : Nat) : Chip8 :=
  if env.pressed (s.V x) then { s with PC := s.PC + 2 } else s

def op_exa1 (env : Env) (s : Chip8) (x : Nat) : Chip8 :=
  if ¬ env.pressed (s.V x) then { s with PC := s.PC + 2 } else s

def op_fx07 (s : Chip8) (x : Nat) : Chip8 :=
  { s with V := upd s.V x s.delay_timer }

def op_fx0a (s : Chip8) (x : Nat) : Chip8 :=
  { s with release_key_register := some x }

def op_fx15 (s : Chip8) (x : Nat) : Chip8 :=
  { s with delay_timer := s.V x }

def op_fx18 (s : Chip8) (x : Nat) : Chip8 :=
  { s with sound_timer := s.V x }

def op_fx1e (s : Chip8) (x : Nat) : Chip8 :=
  { s with I := (s.I + s.V x) % 65536 }

def op_fx29 (s : Chip8) (x : Nat) : Chip8 :=
  { s with I := s.V x * 5 }

/-- Rust `op_fx33`: BCD of `V[x]` at `I`, `I+1`, `I+2`. -/
def op_fx33 (s : Chip8) (x : Nat) : Except Fault Chip8 := do
  let s1 ← memWrite s s.I (s.V x / 100)
  let s2 ← memWrite s1 (s1.I + 1) (s1.V x % 100 / 10)
  memWrite s2 (s2.I + 2) (s2.V x % 10)

/-- The `for offset in 0..=x` store loop of `op_fx55`. -/
def storeRegs (s : Chip8) : List Nat → Except Fault Chip8
  | [] => .ok s
  | offset :: rest => do
    let s1 ← memWrite s (s.I + offset) (s.V offset)
    storeRegs s1 rest

/-- Rust `op_fx55`: store `V[0..=x]` at `I..`; outside SuperChip the source then
runs `I += V[x]; I += 1` (note: the amount added is `V[x] + 1`, the value of
the register, not the index `x`). -/
def op_fx55 (s : Chip8) (x : Nat) : Except Fault Chip8 := do
  let s1 ← storeRegs s (List.range (x + 1))
  if s1.mode ≠ Mode.SuperChip then
    .ok { s1 with I := ((s1.I + s1.V x) % 65536 + 1) % 65536 }
  else
    .ok s1

/-- The `for offset in 0..=x` load loop of `op_fx65`. -/
def loadRegs (s : Chip8) : List Nat → Except Fault Chip8
  | [] => .ok s
  | offset :: rest => do
    let b ← memRead s (s.I + offset)
    loadRegs { s with V := upd s.V offset b } rest

/-- Rust `op_fx65`: load `V[0..=x]` from `I..`; outside SuperChip the source then
runs `I += V[x]; I += 1` on the freshly loaded `V[x]`. -/
def op_fx65 (s : Chip8) (x : Nat) : Except Fault Chip8 := do
  let s1 ← loadRegs s (List.range (x + 1))
  if s1.mode ≠ Mode.SuperChip then
    .ok { s1 with I := ((s1.I + s1.V x) % 65536 + 1) % 65536 }
  else
    .ok s1

/-- Rust `Chip8::execute_opcode`: the nested decode match of src/lib.rs.  Rust match
guards that fail (`0x00C0 if …`, `0x00D0 if …`) fall through to the
`unknown_opcode` default arm, which is a `panic!`. -/
def execute_opcode (env : Env) (s : Chip8) (opcode : Nat) : Except Fault Chip8 :=
  let kk := opcode &&& 0x00FF
  let nnn := opcode &&& 0x0FFF
  let x := (opcode &&& 0x0F00) >>> 8
  let y := (opcode &&& 0x00F0) >>> 4
  let n := opcode &&& 0x000F
  match opcode &&& 0xF000 with
  | 0x0000 =>
    match opcode &&& 0x0F00 with
    | 0x0000 =>
      match opcode &&& 0x00F0 with
      | 0x00C0 =>
        if s.mode = Mode.SuperChip ∨ s.mode = Mode.XOChip then .ok (op_00cn s n)
        else .error (.unknownOpcode opcode)
      | 0x00D0 =>
        if s.mode = Mode.XOChip then .ok (op_00dn s n)
        else .error (.unknownOpcode opcode)
      | 0x00E0 =>
        match opcode &&& 0x000F with
        | 0x0000 => .ok (op_00e0 s)
        | 0x000E => op_00ee s
        | _ => .error (.unknownOpcode opcode)
      | 0x00F0 =>
        match opcode &&& 0x000F with
        | 0x000B => .ok (op_00fb s)
        | 0x000C => .ok (op_00fc s)
        | 0x000E => .ok (op_00fe s)
        | 0x000F => .ok (op_00ff s)
        | _ => .error (.unknownOpcode opcode)
      | _ => .error (.unknownOpcode opcode)
    | _ => .ok (op_0nnn s nnn)
  | 0x1000 => .ok (op_1nnn s nnn)
  | 0x2000 => op_2nnn s nnn
  | 0x3000 => .ok (op_3xkk s x kk)
  | 0x4000 => .ok (op_4xkk s x kk)
  | 0x5000 => .ok (op_5xy0 s x y)
  | 0x6000 => .ok (op_6xkk s x kk)
  | 0x7000 => .ok (op_7xkk s x kk)
  | 0x8000 =>
    match opcode &&& 0xF00F with
    | 0x8000 => .ok (op_8xy0 s x y)
    | 0x8001 => .ok (op_8xy1 s x y)
    | 0x8002 => .ok (op_8xy2 s x y)
    | 0x8003 => .ok (op_8xy3 s x y)
    | 0x8004 => .ok (op_8xy4 s x y)
    | 0x8005 => .ok (op_8xy5 s x y)
    | 0x8006 => .ok (op_8xy6 s x y)
    | 0x8007 => .ok (op_8xy7 s x y)
    | 0x800E => .ok (op_8xye s x y)
    | _ => .error (.unknownOpcode opcode)
  | 0x9000 => .ok (op_9xy0 s x y)
  | 0xA000 => .ok (op_annn s nnn)
  | 0xB000 =>
    if s.mode ≠ Mode.SuperChip then .ok (op_bnnn s nnn)
    else .ok (op_bxnn s x nnn)
  | 0xC000 => .ok (op_cxkk env s x kk)
  | 0xD000 => op_dxyn s x y n
  | 0xE000 =>
    match opcode &&& 0x00FF with
    | 0x009E => .ok (op_ex9e env s x)
    | 0x00A1 => .ok (op_exa1 env s x)
    | _ => .error (.unknownOpcode opcode)
  | 0xF000 =>
    match opcode &&& 0x00FF with
    | 0x0007 => .ok (op_fx07 s x)
    | 0x000A => .ok (op_fx0a s x)
    | 0x0015 => .ok (op_fx15 s x)
    | 0x0018 => .ok (op_fx18 s x)
    | 0x001E => .ok (op_fx1e s x)
    | 0x0029 => .ok (op_fx29 s x)
    | 0x0033 => op_fx33 s x
    | 0x0055 => op_fx55 s x
    | 0x0065 => op_fx65 s x
    | _ => .error (.unknownOpcode opcode)
  | _ => .error (.unknownOpcode opcode)

/-- Rust `Chip8::emulate_cycle`: while awaiting a key release, poll the input and
do not fetch; otherwise fetch and execute one instruction. -/
def emulate_cycle (env : Env) (s : Chip8) : Except Fault Chip8 :=
  match s.release_key_register with
  | some register => .ok (wait_for_next_key env s register)
  | none => do
    let (opcode, s1) ← fetch_opcode s
    execute_opcode env s1 opcode

/-- States reachable by the run loop: a freshly constructed VM, followed by any
interleaving of successful emulation cycles and timer ticks. -/
inductive Reached : Chip8 → Prop
  | init (mode : Mode) (scale : Nat) (memory : Nat → Nat) :
      Reached (Chip8.new mode scale memory)
  | step (env : Env) (s s' : Chip8) :
      Reached s → emulate_cycle env s = .ok s' → Reached s'
  | tick (s : Chip8) : Reached s → Reached (update_timers s)

/-! ### Concrete instances used by counterexamples and witnesses -/

/-- A fixed view of the external collaborators: no key events, random byte 0. -/
def env0 : Env := { rand := 0, pressed := fun _ => false, next_released_key := none }

/-- A freshly constructed classic-mode VM over an all-zero program image. -/
def base : Chip8 := Chip8.new .Chip8 10 (fun _ => 0)

/-- A fresh low-resolution display. -/
def d0 : DisplayManager := DisplayManager.new .Low 10

/-- State exercising `Fx55` in classic mode: `I = 0x300`, `V0 = 7`. -/
def sC1 : Chip8 := { base with I := 0x300, V := upd base.V 0 7 }

/-- State exercising `Fx65` in classic mode: `I = 0x300`, `memory[0x300] = 9`. -/
def sC1b : Chip8 := { base with I := 0x300, memory := upd base.memory 0x300 9 }

/-- Classic-mode state with every register equal to 1. -/
def sC5 : Chip8 := { base with V := fun _ => 1 }

/-- SuperChip-mode state with `V0 = 1` and `V[0xF] = 0`. -/
def sC8 : Chip8 := { base with mode := .SuperChip, V := upd base.V 0 1 }

/-- Input view reporting a released key `0xA`. -/
def envK : Env := { rand := 0, pressed := fun _ => false, next_released_key := some 0xA }

/-- VM awaiting a key release destined for `V3`. -/
def sC9 : Chip8 := { base with release_key_register := some 3 }

/-- State whose program memory holds the SYS opcode `0x0123` at `PC = 0x200`. -/
def sC10 : Chip8 :=
  { base with memory := upd (upd base.memory 0x200 0x01) 0x201 0x23 }

/-- Decides whether an execution result is a normal state (no fault). -/
def okB : Except Fault Chip8 → Bool
  | .ok _ => true
  | .error _ => false

@[simp] lemma exBind_ok {α β : Type} (a : α) (f : α → Except Fault β) :
    (Except.ok a >>= f) = f a := rfl

@[simp] lemma exBind_error {α β : Type} (e : Fault) (f : α → Except Fault β) :
    ((Except.error e : Except Fault α) >>= f) = Except.error e := rfl

/-- C1: in classic mode, `Fx55`/`Fx65` advance `I` by `V[x] + 1`, not by
`x + 1` as the claim states.  With `x = 0`, `I = 0x300`, `V0 = 7`, store
leaves `I = 0x308` whereas the claimed advance would give `0x301`; load of
`memory[0x300] = 9` leaves `I = 0x30A`, not `0x301`. -/
theorem C1_fx55_fx65_increment_bug :
    ((op_fx55 sC1 0).map (fun t => t.I) = .ok 0x308 ∧ (0x308 : Nat) ≠ sC1.I + 0 + 1) ∧
    ((op_fx65 sC1b 0).map (fun t => t.I) = .ok 0x30A ∧ (0x30A : Nat) ≠ sC1b.I + 0 + 1) :=
  ⟨⟨rfl, by decide⟩, ⟨rfl, by decide⟩⟩

/-- C4 counterexample: drawing bit value 0 into a clear pixel.  The pixel is
already equal to that same bit value (both 0), yet `set_pixel` returns
`0 &&& 0 = 0` — not a nonzero collision result as the claim states. -/
theorem C4_counterexample :
    ¬ (((d0.set_pixel 0 0 0).2 ≠ 0) ↔ d0.VRAM 0 0 = 0) := by decide

/-- C4 (amended): for in-range coordinates and 1-bit values, `set_pixel` XORs
`b` into the stored pixel at `(x % width, y % height)`, marks the surface
dirty, leaves all other cells unchanged, and returns a nonzero collision
result exactly when the stored pixel and the drawn bit are both 1 (not merely
equal — two zeroes return 0). -/
theorem C4_set_pixel (d : DisplayManager) (x y b : Nat)
    (hx : x < d.width) (hy : y < d.height) (hp : d.VRAM y x ≤ 1) (hb : b ≤ 1) :
    (d.set_pixel x y b).1.VRAM (y % d.height) (x % d.width) = d.VRAM y x ^^^ b ∧
    (d.set_pixel x y b).1.update_needed = true ∧
    ((d.set_pixel x y b).2 ≠ 0 ↔ (d.VRAM y x = 1 ∧ b = 1)) ∧
    (∀ j i, ¬ (j = y ∧ i = x) → (d.set_pixel x y b).1.VRAM j i = d.VRAM j i) := by
  refine ⟨?_, rfl, ?_, ?_⟩
  · simp [DisplayManager.set_pixel, DisplayManager.draw_pixel,
      Nat.mod_eq_of_lt hx, Nat.mod_eq_of_lt hy]
  · rcases Nat.le_one_iff_eq_zero_or_eq_one.mp hp with h | h <;>
      rcases Nat.le_one_iff_eq_zero_or_eq_one.mp hb with h2 | h2 <;>
        simp [DisplayManager.set_pixel, h, h2]
  · intro j i hji
    simp [DisplayManager.set_pixel, DisplayManager.draw_pixel, hji]

/-- Witness for C4: `set_pixel 0 0 1` on a fresh display. -/
theorem C4_set_pixel_witness :
    ((0 < d0.width) ∧ (0 < d0.height) ∧ d0.VRAM 0 0 ≤ 1 ∧ (1 : Nat) ≤ 1) ∧
    ((d0.set_pixel 0 0 1).1.VRAM (0 % d0.height) (0 % d0.width) = d0.VRAM 0 0 ^^^ 1 ∧
     (d0.set_pixel 0 0 1).1.update_needed = true ∧
     ((d0.set_pixel 0 0 1).2 ≠ 0 ↔ (d0.VRAM 0 0 = 1 ∧ (1 : Nat) = 1)) ∧
     (∀ j i, ¬ (j = 0 ∧ i = 0) → (d0.set_pixel 0 0 1).1.VRAM j i = d0.VRAM j i)) :=
  ⟨⟨by decide, by decide, by decide, by decide⟩,
   C4_set_pixel d0 0 0 1 (by decide) (by decide) (by decide) (by decide)⟩

/-- C5 counterexample: add-with-carry at `x = y = 0xF`.  With `a = b = 1` the
wrapped sum is 2, but the flag write overwrites `V[0xF]` with the carry 0, so
`V[x]` does not hold `(a + b) % 256`. -/
theorem C5_counterexample :
    (op_8xy4 sC5 0xF 0xF).V 0xF ≠ (sC5.V 0xF + sC5.V 0xF) % 256 := by decide

/-- C5 (amended): `8xy4` always leaves the carry (1 iff `a + b > 255`) in
`V[0xF]`, and stores `(a + b) % 256` in `V[x]` provided `x ≠ 0xF`; when
`x = 0xF` the subsequent flag write overwrites the stored sum. -/
theorem C5_add_with_carry (s : Chip8) (x y : Nat) :
    (op_8xy4 s x y).V 0xF = (if 255 < s.V x + s.V y then 1 else 0) ∧
    (x ≠ 0xF → (op_8xy4 s x y).V x = (s.V x + s.V y) % 256) := by
  constructor
  · simp only [op_8xy4, upd]
    simp
    split_ifs <;> omega
  · intro hx
    have hx15 : ¬ ((0xF : Nat) = x) := fun hh => hx hh.symm
    simp [op_8xy4, upd, hx, hx15]

/-- Witness for C5: `8xy4` on `V0 = V1 = 1`. -/
theorem C5_add_with_carry_witness :
    (op_8xy4 sC5 0 1).V 0xF = (if 255 < sC5.V 0 + sC5.V 1 then 1 else 0) ∧
    (op_8xy4 sC5 0 1).V 0 = (sC5.V 0 + sC5.V 1) % 256 :=
  ⟨(C5_add_with_carry sC5 0 1).1, (C5_add_with_carry sC5 0 1).2 (by decide)⟩

/-- C8 counterexample: in SuperChip mode with `x = 0xF`, `8xy1` stores
`V[0xF] ||| V[0]` into `V[0xF]`, so the flag register does not keep its
pre-operation value. -/
theorem C8_counterexample :
    (op_8xy1 sC8 0xF 0).V 0xF ≠ sC8.V 0xF := by decide

/-- C8 (amended): in classic mode `8xy1`/`8xy2`/`8xy3` always zero `V[0xF]`;
in the two extended modes they leave `V[0xF]` unchanged provided `x ≠ 0xF`
(when `x = 0xF` the bitwise result itself lands in the flag register). -/
theorem C8_bitwise_flag (s : Chip8) (x y : Nat) :
    (s.mode = Mode.Chip8 →
      (op_8xy1 s x y).V 0xF = 0 ∧ (op_8xy2 s x y).V 0xF = 0 ∧
      (op_8xy3 s x y).V 0xF = 0) ∧
    (s.mode ≠ Mode.Chip8 → x ≠ 0xF →
      (op_8xy1 s x y).V 0xF = s.V 0xF ∧ (op_8xy2 s x y).V 0xF = s.V 0xF ∧
      (op_8xy3 s x y).V 0xF = s.V 0xF) := by
  constructor
  · intro h
    refine ⟨?_, ?_, ?_⟩ <;> simp [op_8xy1, op_8xy2, op_8xy3, upd, h]
  · intro h hx
    have hx15 : ¬ ((0xF : Nat) = x) := fun hh => hx hh.symm
    refine ⟨?_, ?_, ?_⟩ <;> simp [op_8xy1, op_8xy2, op_8xy3, upd, h, hx15]

/-- Witness for C8: the classic branch on a fresh VM and the extended branch
on the SuperChip state. -/
theorem C8_bitwise_flag_witness :
    ((op_8xy1 base 0 1).V 0xF = 0 ∧ (op_8xy2 base 0 1).V 0xF = 0 ∧
     (op_8xy3 base 0 1).V 0xF = 0) ∧
    ((op_8xy1 sC8 0 1).V 0xF = sC8.V 0xF ∧ (op_8xy2 sC8 0 1).V 0xF = sC8.V 0xF ∧
     (op_8xy3 sC8 0 1).V 0xF = sC8.V 0xF) :=
  ⟨(C8_bitwise_flag base 0 1).1 rfl,
   (C8_bitwise_flag sC8 0 1).2 (by decide) (by decide)⟩

/-- C9: while `release_key_register = some r` (AwaitingRelease), a cycle never
fetches: `PC` and memory are untouched; if the input reports a released key
`k` the cycle writes `k` into `V[r]` and returns to Running
(`release_key_register = none`); otherwise the state is unchanged. -/
theorem C9_keywait (env : Env) (s : Chip8) (r : Nat)
    (h : s.release_key_register = some r) :
    (∀ s2, emulate_cycle env s = .ok s2 → s2.PC = s.PC ∧ s2.memory = s.memory) ∧
    (env.next_released_key = none → emulate_cycle env s = .ok s) ∧
    (∀ k, env.next_released_key = some k →
      emulate_cycle env s = .ok { s with V := upd s.V r k, release_key_register := none }) := by
  unfold emulate_cycle
  rw [h]
  refine ⟨?_, ?_, ?_⟩
  · intro s2 hs2
    cases hs2
    unfold wait_for_next_key
    cases henv : env.next_released_key <;> simp
  · intro hk
    unfold wait_for_next_key
    rw [hk]
  · intro k hk
    unfold wait_for_next_key
    rw [hk]

/-- Witness for C9: the released key `0xA` lands in `V3` and the machine
returns to Running. -/
theorem C9_keywait_witness :
    sC9.release_key_register = some 3 ∧
    emulate_cycle envK sC9 =
      .ok { sC9 with V := upd sC9.V 3 0xA, release_key_register := none } :=
  ⟨rfl, (C9_keywait envK sC9 3 rfl).2.2 0xA rfl⟩

/-- Decode masks of an `00Cn` opcode. -/
lemma mask_00cn : ∀ n, n < 16 →
    (0x00C0 + n) &&& 0xF000 = 0 ∧ (0x00C0 + n) &&& 0x0F00 = 0 ∧
    (0x00C0 + n) &&& 0x00F0 = 0x00C0 ∧ (0x00C0 + n) &&& 0x000F = n := by
  decide

/-- Decode masks of an `00Dn` opcode. -/
lemma mask_00dn : ∀ n, n < 16 →
    (0x00D0 + n) &&& 0xF000 = 0 ∧ (0x00D0 + n) &&& 0x0F00 = 0 ∧
    (0x00D0 + n) &&& 0x00F0 = 0x00D0 ∧ (0x00D0 + n) &&& 0x000F = n := by
  decide

/-- C2 counterexample: in classic (Chip8) mode the scroll-right opcode `00FB`
is executed normally (it scrolls the display), not rejected as a decode
error. -/
theorem C2_counterexample :
    execute_opcode env0 base 0x00FB = .ok (op_00fb base) := rfl

/-- C2 (amended): `00Cn` is a decode error in classic mode and legal in the
two extended modes; `00Dn` is legal only in XO-Chip (a decode error in both
classic and SuperChip modes); and `00FB`/`00FC`/`00FE`/`00FF` are not
mode-gated at all — they execute in every mode, classic included. -/
theorem C2_scroll_resolution_gating (env : Env) (s : Chip8) (n : Nat) (hn : n < 16) :
    (s.mode = Mode.Chip8 →
      execute_opcode env s (0x00C0 + n) = .error (.unknownOpcode (0x00C0 + n)) ∧
      execute_opcode env s (0x00D0 + n) = .error (.unknownOpcode (0x00D0 + n))) ∧
    (s.mode = Mode.SuperChip →
      execute_opcode env s (0x00C0 + n) = .ok (op_00cn s n) ∧
      execute_opcode env s (0x00D0 + n) = .error (.unknownOpcode (0x00D0 + n))) ∧
    (s.mode = Mode.XOChip →
      execute_opcode env s (0x00C0 + n) = .ok (op_00cn s n) ∧
      execute_opcode env s (0x00D0 + n) = .ok (op_00dn s n)) ∧
    (execute_opcode env s 0x00FB = .ok (op_00fb s) ∧
     execute_opcode env s 0x00FC = .ok (op_00fc s) ∧
     execute_opcode env s 0x00FE = .ok (op_00fe s) ∧
     execute_opcode env s 0x00FF = .ok (op_00ff s)) := by
  obtain ⟨c1, c2, c3, c4⟩ := mask_00cn n hn
  obtain ⟨e1, e2, e3, e4⟩ := mask_00dn n hn
  refine ⟨fun h => ⟨?_, ?_⟩, fun h => ⟨?_, ?_⟩, fun h => ⟨?_, ?_⟩, rfl, rfl, rfl, rfl⟩ <;>
    simp only [execute_opcode, c1, c2, c3, c4, e1, e2, e3, e4, h] <;> simp

/-- Witness for C2: all three modes at scroll amount `n = 2`. -/
theorem C2_scroll_resolution_gating_witness :
    (execute_opcode env0 base 0x00C2 = .error (.unknownOpcode 0x00C2) ∧
     execute_opcode env0 base 0x00D2 = .error (.unknownOpcode 0x00D2)) ∧
    (execute_opcode env0 sC8 0x00C2 = .ok (op_00cn sC8 2) ∧
     execute_opcode env0 sC8 0x00D2 = .error (.unknownOpcode 0x00D2)) ∧
    (execute_opcode env0 base 0x00FB = .ok (op_00fb base) ∧
     execute_opcode env0 base 0x00FC = .ok (op_00fc base) ∧
     execute_opcode env0 base 0x00FE = .ok (op_00fe base) ∧
     execute_opcode env0 base 0x00FF = .ok (op_00ff base)) :=
  ⟨(C2_scroll_resolution_gating env0 base 2 (by decide)).1 rfl,
   (C2_scroll_resolution_gating env0 sC8 2 (by decide)).2.1 rfl,
   (C2_scroll_resolution_gating env0 base 2 (by decide)).2.2.2⟩

lemma fetch_ok (s : Chip8) (h : s.PC + 1 < MEMORY_SIZE) :
    fetch_opcode s =
      .ok (s.memory s.PC <<< 8 ||| s.memory (s.PC + 1), { s with PC := s.PC + 2 }) := by
  have h0 : s.PC < MEMORY_SIZE := by omega
  unfold fetch_opcode memRead
  simp [h0, h]

lemma fetch_oob (s : Chip8) (h : MEMORY_SIZE ≤ s.PC + 1) :
    fetch_opcode s = .error .indexOutOfBounds := by
  unfold fetch_opcode memRead
  by_cases h0 : s.PC < MEMORY_SIZE
  · have h1 : ¬ s.PC + 1 < MEMORY_SIZE := by omega
    simp [h0, h1]
  · simp [h0]

lemma storeRegs_oob (l : List Nat) : ∀ s : Chip8,
    (∃ o ∈ l, MEMORY_SIZE ≤ s.I + o) →
    storeRegs s l = .error .indexOutOfBounds := by
  induction l with
  | nil => intro s h; simp at h
  | cons o rest ih =>
    intro s h
    unfold storeRegs memWrite
    by_cases ho : s.I + o < MEMORY_SIZE
    · simp only [if_pos ho]
      simp only [exBind_ok]
      apply ih
      obtain ⟨o2, ho2, hge⟩ := h
      rcases List.mem_cons.mp ho2 with rfl | hmem
      · omega
      · exact ⟨o2, hmem, hge⟩
    · simp [ho]

lemma storeRegs_ok (l : List Nat) : ∀ s : Chip8,
    (∀ o ∈ l, s.I + o < MEMORY_SIZE) →
    ∃ s1, storeRegs s l = .ok s1 := by
  induction l with
  | nil => intro s _; exact ⟨s, rfl⟩
  | cons o rest ih =>
    intro s h
    unfold storeRegs memWrite
    have ho : s.I + o < MEMORY_SIZE := h o (List.mem_cons_self o rest)
    simp only [if_pos ho, exBind_ok]
    exact ih _ (fun o2 hm => h o2 (List.mem_cons_of_mem o hm))

lemma loadRegs_oob (l : List Nat) : ∀ s : Chip8,
    (∃ o ∈ l, MEMORY_SIZE ≤ s.I + o) →
    loadRegs s l = .error .indexOutOfBounds := by
  induction l with
  | nil => intro s h; simp at h
  | cons o rest ih =>
    intro s h
    unfold loadRegs memRead
    by_cases ho : s.I + o < MEMORY_SIZE
    · simp only [if_pos ho, exBind_ok]
      apply ih
      obtain ⟨o2, ho2, hge⟩ := h
      rcases List.mem_cons.mp ho2 with rfl | hmem
      · omega
      · exact ⟨o2, hmem, hge⟩
    · simp [ho]

lemma loadRegs_ok (l : List Nat) : ∀ s : Chip8,
    (∀ o ∈ l, s.I + o < MEMORY_SIZE) →
    ∃ s1, loadRegs s l = .ok s1 := by
  induction l with
  | nil => intro s _; exact ⟨s, rfl⟩
  | cons o rest ih =>
    intro s h
    unfold loadRegs memRead
    have ho : s.I + o < MEMORY_SIZE := h o (List.mem_cons_self o rest)
    simp only [if_pos ho, exBind_ok]
    exact ih _ (fun o2 hm => h o2 (List.mem_cons_of_mem o hm))

/-- C3 counterexample: fetching at `PC = 0xFFF` reads `memory[0x1000]`, one
byte past the array; the result is the modelled host bounds-check panic
(`Fault.indexOutOfBounds`), not a reported `OutOfBoundsAccess` error — no such
error value exists anywhere in the code. -/
theorem C3_counterexample :
    fetch_opcode { base with PC := 0xFFF } = .error .indexOutOfBounds := rfl

/-- C3 (amended): memory accesses through `PC` and `I` are not explicitly
bounds-checked; an out-of-range address triggers Rust's implicit slice
bounds-check panic (modelled as `Fault.indexOutOfBounds`) — fatal, and never a
silent wraparound — while in-range accesses succeed. -/
theorem C3_memory_bounds (s : Chip8) (x y n : Nat) :
    (MEMORY_SIZE ≤ s.PC + 1 → fetch_opcode s = .error .indexOutOfBounds) ∧
    (s.PC + 1 < MEMORY_SIZE →
      fetch_opcode s =
        .ok (s.memory s.PC <<< 8 ||| s.memory (s.PC + 1), { s with PC := s.PC + 2 })) ∧
    (MEMORY_SIZE ≤ s.I + 2 → op_fx33 s x = .error .indexOutOfBounds) ∧
    (s.I + 2 < MEMORY_SIZE → okB (op_fx33 s x) = true) ∧
    (MEMORY_SIZE ≤ s.I + x → op_fx55 s x = .error .indexOutOfBounds) ∧
    (s.I + x < MEMORY_SIZE → okB (op_fx55 s x) = true) ∧
    (MEMORY_SIZE ≤ s.I + x → op_fx65 s x = .error .indexOutOfBounds) ∧
    (s.I + x < MEMORY_SIZE → okB (op_fx65 s x) = true) ∧
    (0 < n → 0 < s.display.height → MEMORY_SIZE ≤ s.I →
      op_dxyn s x y n = .error .indexOutOfBounds) := by
  refine ⟨fetch_oob s, fetch_ok s, ?_, ?_, ?_, ?_, ?_, ?_, ?_⟩
  · intro h
    unfold op_fx33 memWrite
    by_cases h0 : s.I < MEMORY_SIZE
    · simp only [if_pos h0, exBind_ok]
      by_cases h1 : s.I + 1 < MEMORY_SIZE
      · have h2 : ¬ s.I + 2 < MEMORY_SIZE := by omega
        simp [h1, h2]
      · simp [h1]
    · simp [h0]
  · intro h
    unfold op_fx33 memWrite
    have h0 : s.I < MEMORY_SIZE := by omega
    have h1 : s.I + 1 < MEMORY_SIZE := by omega
    simp [h0, h1, h, okB]
  · intro h
    unfold op_fx55
    rw [storeRegs_oob _ s ⟨x, List.mem_range.mpr (Nat.lt_succ_self x), h⟩]
    rfl
  · intro h
    obtain ⟨s1, hs1⟩ := storeRegs_ok (List.range (x + 1)) s
      (fun o ho => by have := List.mem_range.mp ho; omega)
    unfold op_fx55
    rw [hs1]
    simp only [exBind_ok]
    split <;> rfl
  · intro h
    unfold op_fx65
    rw [loadRegs_oob _ s ⟨x, List.mem_range.mpr (Nat.lt_succ_self x), h⟩]
    rfl
  · intro h
    obtain ⟨s1, hs1⟩ := loadRegs_ok (List.range (x + 1)) s
      (fun o ho => by have := List.mem_range.mp ho; omega)
    unfold op_fx65
    rw [hs1]
    simp only [exBind_ok]
    split <;> rfl
  · intro hn hh hI
    unfold op_dxyn
    obtain ⟨m, rfl⟩ : ∃ m, n = m + 1 := ⟨n - 1, by omega⟩
    rw [List.range_succ_eq_map]
    unfold drawRows memRead
    have hyc : s.V y % s.display.height < s.display.height := Nat.mod_lt _ hh
    have hcond : ¬ s.display.height ≤ s.V y % s.display.height := by omega
    have hIr : ¬ s.I < MEMORY_SIZE := by omega
    simp [hcond, hIr]

/-- Witness for C3: out-of-range fetch, BCD, register store and sprite read
all fault; in-range BCD succeeds. -/
theorem C3_memory_bounds_witness :
    fetch_opcode { base with PC := 0xFFE } =
      .ok (0, { { base with PC := 0xFFE } with PC := 0xFFE + 2 }) ∧
    okB (op_fx33 base 0) = true ∧
    op_fx33 { base with I := 4094 } 0 = .error .indexOutOfBounds ∧
    op_fx55 { base with I := 4096 } 0 = .error .indexOutOfBounds ∧
    op_fx65 { base with I := 4096 } 0 = .error .indexOutOfBounds ∧
    op_dxyn { base with I := 4096 } 0 1 1 = .error .indexOutOfBounds := by
  refine ⟨?_, ?_, ?_, ?_, ?_, ?_⟩
  · have h := (C3_memory_bounds { base with PC := 0xFFE } 0 0 1).2.1 (by decide)
    simpa using h
  · exact (C3_memory_bounds base 0 0 1).2.2.2.1 (by decide)
  · exact (C3_memory_bounds { base with I := 4094 } 0 0 1).2.2.1 (by decide)
  · exact (C3_memory_bounds { base with I := 4096 } 0 0 1).2.2.2.2.1 (by decide)
  · exact (C3_memory_bounds { base with I := 4096 } 0 0 1).2.2.2.2.2.2.1 (by decide)
  · exact (C3_memory_bounds { base with I := 4096 } 0 1 1).2.2.2.2.2.2.2.2
      (by decide) (by decide) (by decide)

lemma pow_ge_4096 {i : Nat} (hi : 12 ≤ i) : (4096 : Nat) ≤ 2 ^ i := by
  calc (4096 : Nat) = 2 ^ 12 := by norm_num
    _ ≤ 2 ^ i := Nat.pow_le_pow_right (by norm_num) hi

lemma land_f000_lt (m : Nat) (h : m < 4096) : m &&& 0xF000 = 0 := by
  apply Nat.eq_of_testBit_eq
  intro i
  rw [Nat.testBit_land, Nat.zero_testBit]
  rcases Nat.lt_or_ge i 12 with hi | hi
  · have hb : Nat.testBit 0xF000 i = false := by
      interval_cases i <;> decide
    simp [hb]
  · have hm : Nat.testBit m i = false :=
      Nat.testBit_eq_false_of_lt (lt_of_lt_of_le h (pow_ge_4096 hi))
    simp [hm]

lemma land_0f00_ne (m : Nat) (h : m < 4096) (h2 : 256 ≤ m) : m &&& 0x0F00 ≠ 0 := by
  intro h0
  have hlt : m < 2 ^ 8 := by
    apply Nat.lt_pow_two_of_testBit
    intro i hi
    rcases Nat.lt_or_ge i 12 with hi12 | hi12
    · have hb : Nat.testBit 0x0F00 i = true := by
        interval_cases i <;> decide
      have hz := congrArg (fun t => Nat.testBit t i) h0
      simpa [Nat.testBit_land, Nat.zero_testBit, hb] using hz
    · exact Nat.testBit_eq_false_of_lt (lt_of_lt_of_le h (pow_ge_4096 hi12))
  have : m < 256 := by simpa using hlt
  omega

/-- C10: a cycle on an opcode `0nnn` with nonzero second nibble
(`0x0100 ≤ opcode ≤ 0x0FFF`) is not a decode error and leaves the whole state
unchanged except `PC`, which advances by exactly 2. -/
theorem C10_sys_opcode_noop (env : Env) (s : Chip8)
    (hrun : s.release_key_register = none)
    (hpc : s.PC + 1 < MEMORY_SIZE)
    (hlo : 0x0100 ≤ s.memory s.PC <<< 8 ||| s.memory (s.PC + 1))
    (hhi : s.memory s.PC <<< 8 ||| s.memory (s.PC + 1) ≤ 0x0FFF) :
    emulate_cycle env s = .ok { s with PC := s.PC + 2 } := by
  unfold emulate_cycle
  rw [hrun]
  rw [fetch_ok s hpc]
  simp only [exBind_ok]
  have h1 : (s.memory s.PC <<< 8 ||| s.memory (s.PC + 1)) &&& 0xF000 = 0 :=
    land_f000_lt _ (by omega)
  have h2 : (s.memory s.PC <<< 8 ||| s.memory (s.PC + 1)) &&& 0x0F00 ≠ 0 :=
    land_0f00_ne _ (by omega) hlo
  unfold execute_opcode
  dsimp only
  split <;> try (exfalso; omega)
  · split <;> try (exfalso; omega)
    rw [hrun]
    exact rfl
  · exfalso
    exact absurd h1 (by assumption)

/-- Witness for C10: executing `0x0123` advances `PC` from `0x200` to `0x202`
and changes nothing else. -/
theorem C10_sys_opcode_noop_witness :
    emulate_cycle env0 sC10 = .ok { sC10 with PC := sC10.PC + 2 } :=
  C10_sys_opcode_noop env0 sC10 rfl (by decide) (by decide) (by decide)

/-! ### Stack-pointer preservation of the opcode handlers -/

@[simp] lemma op_0nnn_SP (s : Chip8) (nnn : Nat) : (op_0nnn s nnn).SP = s.SP := rfl
@[simp] lemma op_00cn_SP (s : Chip8) (n : Nat) : (op_00cn s n).SP = s.SP := rfl
@[simp] lemma op_00dn_SP (s : Chip8) (n : Nat) : (op_00dn s n).SP = s.SP := rfl
@[simp] lemma op_00e0_SP (s : Chip8) : (op_00e0 s).SP = s.SP := rfl
@[simp] lemma op_00fb_SP (s : Chip8) : (op_00fb s).SP = s.SP := rfl
@[simp] lemma op_00fc_SP (s : Chip8) : (op_00fc s).SP = s.SP := rfl
@[simp] lemma op_00fe_SP (s : Chip8) : (op_00fe s).SP = s.SP := rfl
@[simp] lemma op_00ff_SP (s : Chip8) : (op_00ff s).SP = s.SP := rfl
@[simp] lemma op_1nnn_SP (s : Chip8) (a : Nat) : (op_1nnn s a).SP = s.SP := rfl

@[simp] lemma op_3xkk_SP (s : Chip8) (x kk : Nat) : (op_3xkk s x kk).SP = s.SP := by
  unfold op_3xkk; split <;> rfl

@[simp] lemma op_4xkk_SP (s : Chip8) (x kk : Nat) : (op_4xkk s x kk).SP = s.SP := by
  unfold op_4xkk; split <;> rfl

@[simp] lemma op_5xy0_SP (s : Chip8) (x y : Nat) : (op_5xy0 s x y).SP = s.SP := by
  unfold op_5xy0; split <;> rfl

@[simp] lemma op_6xkk_SP (s : Chip8) (x kk : Nat) : (op_6xkk s x kk).SP = s.SP := rfl
@[simp] lemma op_7xkk_SP (s : Chip8) (x kk : Nat) : (op_7xkk s x kk).SP = s.SP := rfl
@[simp] lemma op_8xy0_SP (s : Chip8) (x y : Nat) : (op_8xy0 s x y).SP = s.SP := rfl

@[simp] lemma op_8xy1_SP (s : Chip8) (x y : Nat) : (op_8xy1 s x y).SP = s.SP := by
  unfold op_8xy1; dsimp only; split <;> rfl

@[simp] lemma op_8xy2_SP (s : Chip8) (x y : Nat) : (op_8xy2 s x y).SP = s.SP := by
  unfold op_8xy2; dsimp only; split <;> rfl

@[simp] lemma op_8xy3_SP (s : Chip8) (x y : Nat) : (op_8xy3 s x y).SP = s.SP := by
  unfold op_8xy3; dsimp only; split <;> rfl

@[simp] lemma op_8xy4_SP (s : Chip8) (x y : Nat) : (op_8xy4 s x y).SP = s.SP := rfl
@[simp] lemma op_8xy5_SP (s : Chip8) (x y : Nat) : (op_8xy5 s x y).SP = s.SP := rfl

@[simp] lemma op_8xy6_SP (s : Chip8) (x y : Nat) : (op_8xy6 s x y).SP = s.SP := by
  unfold op_8xy6; dsimp only; split <;> rfl

@[simp] lemma op_8xy7_SP (s : Chip8) (x y : Nat) : (op_8xy7 s x y).SP = s.SP := rfl

@[simp] lemma op_8xye_SP (s : Chip8) (x y : Nat) : (op_8xye s x y).SP = s.SP := by
  unfold op_8xye; dsimp only; split <;> rfl

@[simp] lemma op_9xy0_SP (s : Chip8) (x y : Nat) : (op_9xy0 s x y).SP = s.SP := by
  unfold op_9xy0; split <;> rfl

@[simp] lemma op_annn_SP (s : Chip8) (a : Nat) : (op_annn s a).SP = s.SP := rfl
@[simp] lemma op_bnnn_SP (s : Chip8) (a : Nat) : (op_bnnn s a).SP = s.SP := rfl
@[simp] lemma op_bxnn_SP (s : Chip8) (x a : Nat) : (op_bxnn s x a).SP = s.SP := rfl

@[simp] lemma op_cxkk_SP (env : Env) (s : Chip8) (x kk : Nat) :
    (op_cxkk env s x kk).SP = s.SP := rfl

@[simp] lemma op_ex9e_SP (env : Env) (s : Chip8) (x : Nat) :
    (op_ex9e env s x).SP = s.SP := by
  unfold op_ex9e; split <;> rfl

@[simp] lemma op_exa1_SP (env : Env) (s : Chip8) (x : Nat) :
    (op_exa1 env s x).SP = s.SP := by
  unfold op_exa1; split <;> rfl

@[simp] lemma op_fx07_SP (s : Chip8) (x : Nat) : (op_fx07 s x).SP = s.SP := rfl
@[simp] lemma op_fx0a_SP (s : Chip8) (x : Nat) : (op_fx0a s x).SP = s.SP := rfl
@[simp] lemma op_fx15_SP (s : Chip8) (x : Nat) : (op_fx15 s x).SP = s.SP := rfl
@[simp] lemma op_fx18_SP (s : Chip8) (x : Nat) : (op_fx18 s x).SP = s.SP := rfl
@[simp] lemma op_fx1e_SP (s : Chip8) (x : Nat) : (op_fx1e s x).SP = s.SP := rfl
@[simp] lemma op_fx29_SP (s : Chip8) (x : Nat) : (op_fx29 s x).SP = s.SP := rfl

lemma op_00ee_SP {s s2 : Chip8} (h : op_00ee s = .ok s2) : s2.SP = s.SP - 1 := by
  unfold op_00ee at h
  split at h
  · simp at h
  · injection h with h2; subst h2; rfl

lemma op_2nnn_SP {s s2 : Chip8} {nnn : Nat} (h : op_2nnn s nnn = .ok s2) :
    s.SP < MAX_STACK_LEVELS ∧ s2.SP = s.SP + 1 := by
  unfold op_2nnn at h
  split at h
  · simp at h
  · injection h with h2; subst h2; exact ⟨by omega, rfl⟩

lemma memWrite_frame {s s2 : Chip8} {addr v : Nat} (h : memWrite s addr v = .ok s2) :
    s2.SP = s.SP ∧ s2.I = s.I ∧ s2.V = s.V := by
  unfold memWrite at h
  split at h
  · injection h with h2; subst h2; exact ⟨rfl, rfl, rfl⟩
  · simp at h

lemma op_fx33_SP {s s2 : Chip8} {x : Nat} (h : op_fx33 s x = .ok s2) : s2.SP = s.SP := by
  unfold op_fx33 at h
  cases h1 : memWrite s s.I (s.V x / 100) with
  | error e => rw [h1] at h; simp at h
  | ok sa =>
    rw [h1, exBind_ok] at h
    cases h2 : memWrite sa (sa.I + 1) (sa.V x % 100 / 10) with
    | error e => rw [h2] at h; simp at h
    | ok sb =>
      rw [h2, exBind_ok] at h
      have f1 := memWrite_frame h1
      have f2 := memWrite_frame h2
      have f3 := memWrite_frame h
      omega

lemma storeRegs_SP (l : List Nat) : ∀ {s s2 : Chip8},
    storeRegs s l = .ok s2 → s2.SP = s.SP ∧ s2.I = s.I := by
  induction l with
  | nil =>
    intro s s2 h
    injection h with h2; subst h2; exact ⟨rfl, rfl⟩
  | cons o rest ih =>
    intro s s2 h
    unfold storeRegs at h
    cases h1 : memWrite s (s.I + o) (s.V o) with
    | error e => rw [h1] at h; simp at h
    | ok sa =>
      rw [h1, exBind_ok] at h
      have f1 := memWrite_frame h1
      have f2 := ih h
      omega

lemma loadRegs_SP (l : List Nat) : ∀ {s s2 : Chip8},
    loadRegs s l = .ok s2 → s2.SP = s.SP ∧ s2.I = s.I := by
  induction l with
  | nil =>
    intro s s2 h
    injection h with h2; subst h2; exact ⟨rfl, rfl⟩
  | cons o rest ih =>
    intro s s2 h
    unfold loadRegs at h
    cases h1 : memRead s (s.I + o) with
    | error e => rw [h1] at h; simp at h
    | ok b =>
      rw [h1, exBind_ok] at h
      have f2 := ih h
      exact f2

lemma op_fx55_SP {s s2 : Chip8} {x : Nat} (h : op_fx55 s x = .ok s2) : s2.SP = s.SP := by
  unfold op_fx55 at h
  cases h1 : storeRegs s (List.range (x + 1)) with
  | error e => rw [h1] at h; simp at h
  | ok sa =>
    rw [h1, exBind_ok] at h
    have f1 := (storeRegs_SP _ h1).1
    split at h <;> (injection h with h2; subst h2; simpa using f1)

lemma op_fx65_SP {s s2 : Chip8} {x : Nat} (h : op_fx65 s x = .ok s2) : s2.SP = s.SP := by
  unfold op_fx65 at h
  cases h1 : loadRegs s (List.range (x + 1)) with
  | error e => rw [h1] at h; simp at h
  | ok sa =>
    rw [h1, exBind_ok] at h
    have f1 := (loadRegs_SP _ h1).1
    split at h <;> (injection h with h2; subst h2; simpa using f1)

/-- Frame of the inner sprite loop: `drawBits` only touches the display and
the flag register. -/
lemma drawBits_frame (byte xc yy : Nat) (l : List Nat) : ∀ s : Chip8,
    (drawBits s byte xc yy l).mode = s.mode ∧
    (drawBits s byte xc yy l).memory = s.memory ∧
    (drawBits s byte xc yy l).I = s.I ∧
    (drawBits s byte xc yy l).PC = s.PC ∧
    (drawBits s byte xc yy l).SP = s.SP ∧
    (drawBits s byte xc yy l).display.width = s.display.width ∧
    (drawBits s byte xc yy l).display.height = s.display.height ∧
    (drawBits s byte xc yy l).release_key_register = s.release_key_register ∧
    (∀ i, i ≠ 0xF → (drawBits s byte xc yy l).V i = s.V i) := by
  induction l with
  | nil => intro s; exact ⟨rfl, rfl, rfl, rfl, rfl, rfl, rfl, rfl, fun i _ => rfl⟩
  | cons b rest ih =>
    intro s
    unfold drawBits
    split
    · exact ⟨rfl, rfl, rfl, rfl, rfl, rfl, rfl, rfl, fun i _ => rfl⟩
    · dsimp only
      obtain ⟨m1, m2, m3, m4, m5, m6, m7, m8, m9⟩ :=
        ih { s with
              display := (s.display.set_pixel ((xc + b) % s.display.width) yy
                ((byte >>> (7 - b)) &&& 1)).1,
              V := upd s.V 0xF (s.V 0xF |||
                (s.display.set_pixel ((xc + b) % s.display.width) yy
                  ((byte >>> (7 - b)) &&& 1)).2) }
      refine ⟨m1, m2, m3, m4, m5, m6, m7, m8, fun i hi => ?_⟩
      rw [m9 i hi]
      simp [upd, hi]

/-- Frame of the outer sprite loop. -/
lemma drawRows_frame (xc yc : Nat) (l : List Nat) : ∀ s s2 : Chip8,
    drawRows s xc yc l = .ok s2 →
    s2.mode = s.mode ∧
    s2.memory = s.memory ∧
    s2.I = s.I ∧
    s2.PC = s.PC ∧
    s2.SP = s.SP ∧
    s2.display.width = s.display.width ∧
    s2.display.height = s.display.height ∧
    s2.release_key_register = s.release_key_register ∧
    (∀ i, i ≠ 0xF → s2.V i = s.V i) := by
  induction l with
  | nil =>
    intro s s2 h
    injection h with h2; subst h2
    exact ⟨rfl, rfl, rfl, rfl, rfl, rfl, rfl, rfl, fun i _ => rfl⟩
  | cons b rest ih =>
    intro s s2 h
    unfold drawRows at h
    split at h
    · injection h with h2; subst h2
      exact ⟨rfl, rfl, rfl, rfl, rfl, rfl, rfl, rfl, fun i _ => rfl⟩
    · cases h1 : memRead s (s.I + b) with
      | error e => rw [h1] at h; simp at h
      | ok byte =>
        rw [h1, exBind_ok] at h
        obtain ⟨d1, d2, d3, d4, d5, d6, d7, d8, d9⟩ :=
          drawBits_frame byte xc ((yc + b) % s.display.height) (List.range SPRITE_WIDTH) s
        obtain ⟨r1, r2, r3, r4, r5, r6, r7, r8, r9⟩ := ih _ _ h
        exact ⟨r1.trans d1, r2.trans d2, r3.trans d3, r4.trans d4, r5.trans d5,
          r6.trans d6, r7.trans d7, r8.trans d8,
          fun i hi => (r9 i hi).trans (d9 i hi)⟩

lemma op_dxyn_SP {s s2 : Chip8} {x y n : Nat} (h : op_dxyn s x y n = .ok s2) :
    s2.SP = s.SP := by
  unfold op_dxyn at h
  exact (drawRows_frame _ _ _ _ _ h).2.2.2.2.1

lemma execute_SP {env : Env} {s : Chip8} {opcode : Nat} {s2 : Chip8}
    (h : execute_opcode env s opcode = .ok s2) (hsp : s.SP ≤ MAX_STACK_LEVELS) :
    s2.SP ≤ MAX_STACK_LEVELS := by
  unfold execute_opcode at h
  dsimp only at h
  repeat' split at h
  all_goals
    first
    | (injection h with h2; subst h2;
       simp only [op_0nnn_SP, op_00cn_SP, op_00dn_SP, op_00e0_SP, op_00fb_SP,
         op_00fc_SP, op_00fe_SP, op_00ff_SP, op_1nnn_SP, op_3xkk_SP, op_4xkk_SP,
         op_5xy0_SP, op_6xkk_SP, op_7xkk_SP, op_8xy0_SP, op_8xy1_SP, op_8xy2_SP,
         op_8xy3_SP, op_8xy4_SP, op_8xy5_SP, op_8xy6_SP, op_8xy7_SP, op_8xye_SP,
         op_9xy0_SP, op_annn_SP, op_bnnn_SP, op_bxnn_SP, op_cxkk_SP, op_ex9e_SP,
         op_exa1_SP, op_fx07_SP, op_fx0a_SP, op_fx15_SP, op_fx18_SP, op_fx1e_SP,
         op_fx29_SP];
       omega)
    | (have h3 := op_00ee_SP h; omega)
    | (have h3 := op_2nnn_SP h; omega)
    | (have h3 := op_dxyn_SP h; omega)
    | (have h3 := op_fx33_SP h; omega)
    | (have h3 := op_fx55_SP h; omega)
    | (have h3 := op_fx65_SP h; omega)
    | simp at h

lemma fetch_SP {s : Chip8} {p : Nat × Chip8} (h : fetch_opcode s = .ok p) :
    p.2.SP = s.SP := by
  unfold fetch_opcode memRead at h
  split at h
  · split at h
    · injection h with h2; subst h2; rfl
    · simp at h
  · simp at h

lemma emulate_SP {env : Env} {s s2 : Chip8}
    (h : emulate_cycle env s = .ok s2) (hsp : s.SP ≤ MAX_STACK_LEVELS) :
    s2.SP ≤ MAX_STACK_LEVELS := by
  unfold emulate_cycle at h
  split at h
  · injection h with h2; subst h2
    unfold wait_for_next_key
    split <;> simpa using hsp
  · cases hf : fetch_opcode s with
    | error e => rw [hf] at h; simp at h
    | ok p =>
      rw [hf, exBind_ok] at h
      have hps := fetch_SP hf
      exact execute_SP h (by omega)

/-- C7: every reachable state has `SP ≤ 16`; a call at `SP = 16` fails with
the stack-overflow panic and a return at `SP = 0` fails with the
stack-underflow panic, in both cases before any mutation of `SP` or the
stack. -/
theorem C7_stack_invariant :
    (∀ s, Reached s → s.SP ≤ MAX_STACK_LEVELS) ∧
    (∀ s nnn, s.SP = MAX_STACK_LEVELS → op_2nnn s nnn = .error .stackOverflow) ∧
    (∀ s, s.SP = 0 → op_00ee s = .error .stackUnderflow) := by
  refine ⟨?_, ?_, ?_⟩
  · intro s h
    induction h with
    | init mode scale memory =>
      have : (Chip8.new mode scale memory).SP = 0 := rfl
      omega
    | step env s s2 hr hstep ih => exact emulate_SP hstep ih
    | tick s hr ih => simpa [update_timers] using ih
  · intro s nnn h
    unfold op_2nnn
    rw [if_pos (by omega)]
  · intro s h
    unfold op_00ee
    rw [if_pos h]

/-- Witness for C7: a fresh VM is reachable with `SP = 0 ≤ 16`; call at a full
stack and return at an empty stack both fault. -/
theorem C7_stack_invariant_witness :
    base.SP ≤ MAX_STACK_LEVELS ∧
    op_2nnn { base with SP := 16 } 0x300 = .error .stackOverflow ∧
    op_00ee base = .error .stackUnderflow :=
  ⟨C7_stack_invariant.1 base (Reached.init .Chip8 10 (fun _ => 0)),
   C7_stack_invariant.2.1 { base with SP := 16 } 0x300 rfl,
   C7_stack_invariant.2.2 base rfl⟩

/-! ### The XOR-draw/collision behaviour of the inner sprite loop -/

lemma set_pixel_fst_VRAM (d : DisplayManager) (x y v : Nat) :
    (d.set_pixel x y v).1.VRAM =
      fun j i => if j = y ∧ i = x then d.VRAM y x ^^^ v else d.VRAM j i := rfl

lemma set_pixel_snd (d : DisplayManager) (x y v : Nat) :
    (d.set_pixel x y v).2 = d.VRAM y x &&& v := rfl

lemma ff_bit : ∀ b, b < 8 → (0xFF >>> (7 - b)) &&& 1 = 1 := by decide

lemma and_one_le_one {v : Nat} (hv : v ≤ 1) : v &&& 1 = v := by
  interval_cases v <;> rfl

lemma pos_inj {w : Nat} (hw : 8 ≤ w) (xc i j : Nat)
    (hi : i < 8) (hj : j < 8) (hij : i ≠ j) :
    (xc + i) % w ≠ (xc + j) % w := by
  intro hcontra
  have h2 : i % w = j % w := Nat.ModEq.add_left_cancel' xc hcontra
  rw [Nat.mod_eq_of_lt (by omega), Nat.mod_eq_of_lt (by omega)] at h2
  exact hij h2

/-- Drawing the all-ones sprite byte over a row of pixels that all hold the
same 1-bit value `v` at pairwise-distinct positions: every drawn (non-clipped)
pixel is toggled to `v ^^^ 1`, every other cell is untouched, and the flag
register accumulates `v` exactly when at least one pixel was drawn. -/
lemma drawBits_draw (m : Mode) (w xc yy v : Nat) (hv : v ≤ 1) (l : List Nat) :
    ∀ s : Chip8, s.mode = m → s.display.width = w →
    (∀ i ∈ l, i < 8) →
    List.Pairwise (· < ·) l →
    (∀ i ∈ l, ∀ j ∈ l, i ≠ j → (xc + i) % w ≠ (xc + j) % w) →
    (∀ i ∈ l, (m = Mode.XOChip ∨ xc + i < w) → s.display.VRAM yy ((xc + i) % w) = v) →
    (∀ i ∈ l, (m = Mode.XOChip ∨ xc + i < w) →
        (drawBits s 0xFF xc yy l).display.VRAM yy ((xc + i) % w) = v ^^^ 1) ∧
    (∀ y2 x2, (y2 ≠ yy ∨ ∀ i ∈ l, x2 ≠ (xc + i) % w) →
        (drawBits s 0xFF xc yy l).display.VRAM y2 x2 = s.display.VRAM y2 x2) ∧
    ((drawBits s 0xFF xc yy l).V 0xF =
      if ∃ i ∈ l, (m = Mode.XOChip ∨ xc + i < w) then s.V 0xF ||| v else s.V 0xF) := by
  induction l with
  | nil =>
    intro s hm hw h8 hsort hdis h1
    refine ⟨fun i hi => absurd hi (List.not_mem_nil i), fun y2 x2 _ => rfl, ?_⟩
    have hnone : ¬ ∃ i ∈ ([] : List Nat), (m = Mode.XOChip ∨ xc + i < w) := by
      rintro ⟨i, hi, -⟩
      exact List.not_mem_nil i hi
    rw [if_neg hnone]
    rfl
  | cons b rest ih =>
    intro s hm hw h8 hsort hdis h1
    have hb8 : b < 8 := h8 b (List.mem_cons_self b rest)
    have hblt : ∀ i ∈ rest, b < i := fun i hi => List.rel_of_pairwise_cons hsort hi
    unfold drawBits
    rw [hw]
    by_cases hp : m = Mode.XOChip ∨ xc + b < w
    · have hcond : ¬ (s.mode ≠ Mode.XOChip ∧ w ≤ xc + b) := by
        rw [hm]
        rcases hp with h | h
        · exact fun hc => hc.1 h
        · exact fun hc => absurd hc.2 (by omega)
      rw [if_neg hcond]
      dsimp only
      rw [ff_bit b hb8]
      have hpos : s.display.VRAM yy ((xc + b) % w) = v :=
        h1 b (List.mem_cons_self b rest) hp
      have h1x : ∀ i ∈ rest, (m = Mode.XOChip ∨ xc + i < w) →
          ((s.display.set_pixel ((xc + b) % w) yy 1).1).VRAM yy ((xc + i) % w) = v := by
        intro i hi hpi
        have hne : (xc + i) % w ≠ (xc + b) % w :=
          hdis i (List.mem_cons_of_mem b hi) b (List.mem_cons_self b rest)
            (Ne.symm (Nat.ne_of_lt (hblt i hi)))
        rw [set_pixel_fst_VRAM]
        dsimp only
        rw [if_neg (by rintro ⟨-, hx⟩; exact hne hx)]
        exact h1 i (List.mem_cons_of_mem b hi) hpi
      obtain ⟨ih1, ih2, ih3⟩ :=
        ih { s with
              display := (s.display.set_pixel ((xc + b) % w) yy 1).1,
              V := upd s.V 0xF (s.V 0xF ||| (s.display.set_pixel ((xc + b) % w) yy 1).2) }
          hm hw
          (fun i hi => h8 i (List.mem_cons_of_mem b hi))
          (List.pairwise_cons.mp hsort).2
          (fun i hi j hj hij =>
            hdis i (List.mem_cons_of_mem b hi) j (List.mem_cons_of_mem b hj) hij)
          h1x
      refine ⟨?_, ?_, ?_⟩
      · intro i hi hpi
        rcases List.mem_cons.mp hi with rfl | hmem
        · have hall : ∀ i2 ∈ rest, (xc + i) % w ≠ (xc + i2) % w := fun i2 hi2 =>
            hdis i (List.mem_cons_self i rest) i2 (List.mem_cons_of_mem i hi2)
              (Nat.ne_of_lt (hblt i2 hi2))
          rw [ih2 yy ((xc + i) % w) (Or.inr hall)]
          dsimp only
          rw [set_pixel_fst_VRAM]
          dsimp only
          rw [if_pos ⟨rfl, rfl⟩, hpos]
        · exact ih1 i hmem hpi
      · intro y2 x2 hyx
        have hyx2 : y2 ≠ yy ∨ ∀ i ∈ rest, x2 ≠ (xc + i) % w := by
          rcases hyx with h | h
          · exact Or.inl h
          · exact Or.inr fun i hi => h i (List.mem_cons_of_mem b hi)
        rw [ih2 y2 x2 hyx2]
        dsimp only
        rw [set_pixel_fst_VRAM]
        dsimp only
        have hnot : ¬ (y2 = yy ∧ x2 = (xc + b) % w) := by
          rintro ⟨hy, hx⟩
          rcases hyx with h | h
          · exact h hy
          · exact h b (List.mem_cons_self b rest) hx
        rw [if_neg hnot]
      · rw [ih3]
        have hsv : (upd s.V 0xF
            (s.V 0xF ||| (s.display.set_pixel ((xc + b) % w) yy 1).2)) 0xF =
            s.V 0xF ||| v := by
          rw [set_pixel_snd, hpos, and_one_le_one hv]
          simp [upd]
        rw [if_pos (show ∃ i ∈ b :: rest, (m = Mode.XOChip ∨ xc + i < w) from
          ⟨b, List.mem_cons_self b rest, hp⟩)]
        by_cases hre : ∃ i ∈ rest, (m = Mode.XOChip ∨ xc + i < w)
        · rw [if_pos hre]
          dsimp only
          rw [hsv, Nat.or_assoc, Nat.or_self]
        · rw [if_neg hre]
          dsimp only
          rw [hsv]
    · have hcond : s.mode ≠ Mode.XOChip ∧ w ≤ xc + b := by
        rw [hm]
        rcases not_or.mp hp with ⟨h1a, h2a⟩
        exact ⟨h1a, by omega⟩
      rw [if_pos hcond]
      have hnone : ¬ ∃ i ∈ b :: rest, (m = Mode.XOChip ∨ xc + i < w) := by
        rintro ⟨i, hi, hpi⟩
        rcases List.mem_cons.mp hi with rfl | hmem
        · exact hp hpi
        · rcases hpi with hxo | hlt
          · exact hp (Or.inl hxo)
          · exact hp (Or.inr (by have := hblt i hmem; omega))
      refine ⟨?_, fun y2 x2 _ => rfl, ?_⟩
      · intro i hi hpi
        exact absurd ⟨i, hi, hpi⟩ hnone
      · rw [if_neg hnone]

/-- C6: drawing the 8×1 sprite byte `0xFF` twice at the same coordinates on an
initially empty framebuffer (any mode, any resolution with `8 ≤ width`) leaves
every touched pixel clear, with collision flag `V[0xF] = 0` after the first
draw and `1` after the second. -/
theorem C6_double_draw (s : Chip8) (x y : Nat)
    (hx : x ≠ 0xF) (hy : y ≠ 0xF)
    (hw8 : 8 ≤ s.display.width) (hh : 0 < s.display.height)
    (hI : s.I < MEMORY_SIZE) (hmem : s.memory s.I = 0xFF)
    (hempty : ∀ j i, s.display.VRAM j i = 0) :
    ∃ s1 s2, op_dxyn s x y 1 = .ok s1 ∧ op_dxyn s1 x y 1 = .ok s2 ∧
      s1.V 0xF = 0 ∧ s2.V 0xF = 1 ∧
      (∀ i, i < 8 →
        (s.mode = Mode.XOChip ∨ s.V x % s.display.width + i < s.display.width) →
        s2.display.VRAM (s.V y % s.display.height)
          ((s.V x % s.display.width + i) % s.display.width) = 0) := by
  have hw0 : 0 < s.display.width := by omega
  have hxc : s.V x % s.display.width < s.display.width := Nat.mod_lt _ hw0
  have hyc : s.V y % s.display.height < s.display.height := Nat.mod_lt _ hh
  have hrow : ¬ (s.mode ≠ Mode.XOChip ∧
      s.display.height ≤ s.V y % s.display.height + 0) :=
    fun hc => absurd hc.2 (by omega)
  -- the first draw
  have hrun1 : op_dxyn s x y 1 =
      .ok (drawBits { s with V := upd s.V 0xF 0 } 0xFF (s.V x % s.display.width)
        (s.V y % s.display.height) (List.range 8)) := by
    unfold op_dxyn
    rw [show List.range 1 = [0] from rfl]
    unfold drawRows
    dsimp only
    rw [if_neg hrow]
    unfold memRead
    dsimp only
    rw [if_pos (show s.I + 0 < MEMORY_SIZE by omega), exBind_ok]
    unfold drawRows
    rw [Nat.add_zero, Nat.add_zero, hmem, Nat.mod_mod_of_dvd _ dvd_rfl]
    rfl
  obtain ⟨A1, A2, A3⟩ :=
    drawBits_draw s.mode s.display.width (s.V x % s.display.width)
      (s.V y % s.display.height) 0 (by omega) (List.range 8)
      { s with V := upd s.V 0xF 0 } rfl rfl
      (fun i hi => List.mem_range.mp hi)
      (List.pairwise_lt_range 8)
      (fun i hi j hj hij => pos_inj hw8 _ i j (List.mem_range.mp hi)
        (List.mem_range.mp hj) hij)
      (fun i _ _ => hempty _ _)
  obtain ⟨f1, f2, f3, f4, f5, f6, f7, f8, f9⟩ :=
    drawBits_frame 0xFF (s.V x % s.display.width) (s.V y % s.display.height)
      (List.range 8) { s with V := upd s.V 0xF 0 }
  have hflag1 :
      (drawBits { s with V := upd s.V 0xF 0 } 0xFF (s.V x % s.display.width)
        (s.V y % s.display.height) (List.range 8)).V 0xF = 0 := by
    rw [A3]
    split <;> simp [upd]
  have hVx : (drawBits { s with V := upd s.V 0xF 0 } 0xFF (s.V x % s.display.width)
      (s.V y % s.display.height) (List.range 8)).V x = s.V x := by
    rw [f9 x hx]; simp [upd, hx]
  have hVy : (drawBits { s with V := upd s.V 0xF 0 } 0xFF (s.V x % s.display.width)
      (s.V y % s.display.height) (List.range 8)).V y = s.V y := by
    rw [f9 y hy]; simp [upd, hy]
  -- the second draw
  have hrun2 : op_dxyn (drawBits { s with V := upd s.V 0xF 0 } 0xFF
      (s.V x % s.display.width) (s.V y % s.display.height) (List.range 8)) x y 1 =
      .ok (drawBits { drawBits { s with V := upd s.V 0xF 0 } 0xFF
            (s.V x % s.display.width) (s.V y % s.display.height) (List.range 8) with
          V := upd (drawBits { s with V := upd s.V 0xF 0 } 0xFF
            (s.V x % s.display.width) (s.V y % s.display.height) (List.range 8)).V 0xF 0 }
        0xFF (s.V x % s.display.width) (s.V y % s.display.height) (List.range 8)) := by
    unfold op_dxyn
    rw [show List.range 1 = [0] from rfl]
    unfold drawRows
    dsimp only
    rw [f1, f6, f7, hVx, hVy]
    dsimp only
    rw [if_neg hrow]
    unfold memRead
    dsimp only
    rw [f3, f2]
    dsimp only
    rw [if_pos (show s.I + 0 < MEMORY_SIZE by omega), exBind_ok]
    unfold drawRows
    rw [Nat.add_zero, Nat.add_zero, hmem, Nat.mod_mod_of_dvd _ dvd_rfl]
    rfl
  obtain ⟨B1, B2, B3⟩ :=
    drawBits_draw s.mode s.display.width (s.V x % s.display.width)
      (s.V y % s.display.height) 1 (by omega) (List.range 8)
      { drawBits { s with V := upd s.V 0xF 0 } 0xFF (s.V x % s.display.width)
          (s.V y % s.display.height) (List.range 8) with
        V := upd (drawBits { s with V := upd s.V 0xF 0 } 0xFF
          (s.V x % s.display.width) (s.V y % s.display.height) (List.range 8)).V 0xF 0 }
      f1 f6
      (fun i hi => List.mem_range.mp hi)
      (List.pairwise_lt_range 8)
      (fun i hi j hj hij => pos_inj hw8 _ i j (List.mem_range.mp hi)
        (List.mem_range.mp hj) hij)
      (fun i hi hpi => by
        have := A1 i hi hpi
        simpa using this)
  refine ⟨_, _, hrun1, hrun2, hflag1, ?_, ?_⟩
  · rw [B3]
    rw [if_pos ⟨0, List.mem_range.mpr (by omega),
      Or.inr (by omega : s.V x % s.display.width + 0 < s.display.width)⟩]
    simp [upd]
  · intro i hi hpi
    have := B1 i (List.mem_range.mpr hi) hpi
    simpa using this

/-- Classic-mode state for the double-draw witness: `I = 0x250` points at the
byte `0xFF`, `V0 = 3`, `V1 = 5`, empty framebuffer. -/
def sC6 : Chip8 :=
  { base with
    memory := upd base.memory 0x250 0xFF,
    V := upd (upd base.V 0 3) 1 5,
    I := 0x250 }

/-- Witness for C6 at concrete coordinates `(V0, V1) = (3, 5)` in classic
mode. -/
theorem C6_double_draw_witness :
    ∃ s1 s2, op_dxyn sC6 0 1 1 = .ok s1 ∧ op_dxyn s1 0 1 1 = .ok s2 ∧
      s1.V 0xF = 0 ∧ s2.V 0xF = 1 ∧
      (∀ i, i < 8 →
        (sC6.mode = Mode.XOChip ∨
          sC6.V 0 % sC6.display.width + i < sC6.display.width) →
        s2.display.VRAM (sC6.V 1 % sC6.display.height)
          ((sC6.V 0 % sC6.display.width + i) % sC6.display.width) = 0) :=
  C6_double_draw sC6 0 1 (by decide) (by decide) (by decide) (by decide)
    (by decide) (by decide) (fun j i => rfl)

end Emul8
